import Mathlib

/-!
Verification of the video scene-analysis / segment-rendering / timeline-export
core of this repository against its natural-language specification.

Timestamps and rates are modelled as exact rationals (`ℚ`).  Python's `round`
builtin (round-half-to-even on the scaled value) is modelled by
`roundHalfEven` below.  File systems, subprocess invocations and other
external effects are modelled as explicit parameters (oracles) of the
embedded functions; each embedded function mirrors, branch for branch, the
corresponding Python function named in its doc comment.
-/

namespace VideoCore

/-- Round a rational to the nearest integer, ties to the even integer
(the rounding mode of Python's `round` builtin). -/
def roundHalfEven (q : ℚ) : ℤ :=
  let f : ℤ := ⌊q⌋
  let r : ℚ := q - f
  if r < 1/2 then f
  else if 1/2 < r then f + 1
  else if f % 2 = 0 then f else f + 1

/-- Python `round(x, 2)` modelled over `ℚ`. -/
def pyRound2 (q : ℚ) : ℚ := (roundHalfEven (q * 100) : ℚ) / 100

/-- Python `round(x, 3)` modelled over `ℚ`. -/
def pyRound3 (q : ℚ) : ℚ := (roundHalfEven (q * 1000) : ℚ) / 1000

theorem roundHalfEven_intCast (n : ℤ) : roundHalfEven (n : ℚ) = n := by
  simp [roundHalfEven]

theorem le_roundHalfEven_iff {n : ℤ} {q : ℚ} (h : (n : ℚ) ≤ q) :
    n ≤ roundHalfEven q := by
  unfold roundHalfEven
  have hf : n ≤ ⌊q⌋ := Int.le_floor.mpr h
  dsimp only
  split <;> [skip; split <;> [skip; split]] <;> omega

theorem roundHalfEven_le_of_le {n : ℤ} {q : ℚ} (h : q ≤ (n : ℚ)) :
    roundHalfEven q ≤ n := by
  unfold roundHalfEven
  have hf : ⌊q⌋ ≤ n := by
    exact_mod_cast Int.floor_le_floor h |>.trans_eq (Int.floor_intCast n)
  dsimp only
  rcases lt_or_eq_of_le hf with hlt | heq
  · split <;> [omega; split <;> [omega; split]] <;> omega
  · have hq : q = (n : ℚ) := by
      have h1 : (⌊q⌋ : ℚ) ≤ q := Int.floor_le q
      have : ((n : ℤ) : ℚ) ≤ q := by rw [← heq]; exact h1
      exact le_antisymm h this
    subst hq
    have hfl : ⌊(n : ℚ)⌋ = n := Int.floor_intCast n
    simp only [hfl]
    have : (n : ℚ) - (n : ℚ) = 0 := by ring
    rw [this]
    norm_num

theorem floor_le_roundHalfEven (q : ℚ) : ⌊q⌋ ≤ roundHalfEven q := by
  unfold roundHalfEven; dsimp only
  split <;> [omega; split <;> [omega; split]] <;> omega

theorem roundHalfEven_le_floor_add_one (q : ℚ) : roundHalfEven q ≤ ⌊q⌋ + 1 := by
  unfold roundHalfEven; dsimp only
  split <;> [omega; split <;> [omega; split]] <;> omega

theorem roundHalfEven_of_fract_lt {q : ℚ} (h : q - ⌊q⌋ < 1/2) :
    roundHalfEven q = ⌊q⌋ := by
  unfold roundHalfEven; dsimp only
  rw [if_pos h]

theorem roundHalfEven_of_lt_fract {q : ℚ} (h : 1/2 < q - ⌊q⌋) :
    roundHalfEven q = ⌊q⌋ + 1 := by
  unfold roundHalfEven; dsimp only
  rw [if_neg (by linarith), if_pos h]

theorem roundHalfEven_mono {x y : ℚ} (h : x ≤ y) :
    roundHalfEven x ≤ roundHalfEven y := by
  have hf : ⌊x⌋ ≤ ⌊y⌋ := Int.floor_le_floor h
  rcases lt_or_eq_of_le hf with hlt | heq
  · -- different floors: roundHalfEven x ≤ ⌊x⌋ + 1 ≤ ⌊y⌋ ≤ roundHalfEven y
    have h1 := roundHalfEven_le_floor_add_one x
    have h2 := floor_le_roundHalfEven y
    omega
  · -- same floor: compare the fractional parts
    have hrx : x - ⌊x⌋ ≤ y - ⌊y⌋ := by
      rw [← heq]; exact sub_le_sub_right h _
    rcases lt_trichotomy (x - ⌊x⌋) (1/2) with ha | ha | ha
    · rw [roundHalfEven_of_fract_lt ha]
      exact heq ▸ floor_le_roundHalfEven y
    · rcases lt_or_eq_of_le (ha ▸ hrx) with hb | hb
      · rw [roundHalfEven_of_lt_fract hb]
        have := roundHalfEven_le_floor_add_one x
        omega
      · have hxy : x = y := by
          have hcx : (⌊x⌋ : ℚ) = (⌊y⌋ : ℚ) := by exact_mod_cast heq
          linarith [ha, hb]
        rw [hxy]
    · have hb : 1/2 < y - ⌊y⌋ := lt_of_lt_of_le ha hrx
      rw [roundHalfEven_of_lt_fract ha, roundHalfEven_of_lt_fract hb, heq]

/-- Shifting by an even integer commutes with half-even rounding
(the tie-parity is preserved). -/
theorem roundHalfEven_add_two_mul (q : ℚ) (k : ℤ) :
    roundHalfEven (q + 2 * k) = roundHalfEven q + 2 * k := by
  unfold roundHalfEven
  have hfl : ⌊q + 2 * (k : ℚ)⌋ = ⌊q⌋ + 2 * k := by
    rw [show (2 : ℚ) * k = ((2 * k : ℤ) : ℚ) by push_cast; ring]
    exact Int.floor_add_int q (2 * k)
  dsimp only
  rw [hfl]
  have hr : q + 2 * (k : ℚ) - ((⌊q⌋ + 2 * k : ℤ) : ℚ) = q - ⌊q⌋ := by
    push_cast; ring
  rw [hr]
  have hpar : (⌊q⌋ + 2 * k) % 2 = ⌊q⌋ % 2 := by omega
  rw [hpar]
  split <;> [omega; split <;> [omega; split]] <;> omega

theorem pyRound2_mono {x y : ℚ} (h : x ≤ y) : pyRound2 x ≤ pyRound2 y := by
  unfold pyRound2
  have := roundHalfEven_mono (mul_le_mul_of_nonneg_right h (by norm_num : (0:ℚ) ≤ 100))
  have h2 : ((roundHalfEven (x * 100) : ℚ)) ≤ ((roundHalfEven (y * 100) : ℚ)) := by
    exact_mod_cast this
  linarith

/-- `pyRound2 (q + k/50) = pyRound2 q + k/50`: shifting by an even number of
centiseconds commutes with rounding to centiseconds. -/
theorem pyRound2_add_even_cs (q : ℚ) (k : ℤ) :
    pyRound2 (q + k / 50) = pyRound2 q + k / 50 := by
  unfold pyRound2
  have harg : (q + (k : ℚ) / 50) * 100 = q * 100 + 2 * k := by ring
  rw [harg, roundHalfEven_add_two_mul]
  push_cast
  ring

theorem pyRound2_intCast (n : ℤ) : pyRound2 (n : ℚ) = n := by
  unfold pyRound2
  have h : ((n : ℚ)) * 100 = ((100 * n : ℤ) : ℚ) := by push_cast; ring
  rw [h, roundHalfEven_intCast]
  push_cast; ring

theorem pyRound3_nonneg {q : ℚ} (h : 0 ≤ q) : 0 ≤ pyRound3 q := by
  unfold pyRound3
  have h1 : (0 : ℤ) ≤ roundHalfEven (q * 1000) :=
    le_roundHalfEven_iff (by positivity)
  have : (0 : ℚ) ≤ (roundHalfEven (q * 1000) : ℚ) := by exact_mod_cast h1
  positivity

theorem pyRound3_le_one {q : ℚ} (h : q ≤ 1) : pyRound3 q ≤ 1 := by
  unfold pyRound3
  have h1 : roundHalfEven (q * 1000) ≤ (1000 : ℤ) :=
    roundHalfEven_le_of_le (by push_cast; linarith)
  have h2 : (roundHalfEven (q * 1000) : ℚ) ≤ 1000 := by exact_mod_cast h1
  linarith

/-! ## Scene boundary detection

`detect_scenes` (src/backend/video_analysis/detect_scenes.py) post-processes
the raw scene list reported by the external PySceneDetect pass; the raw list
(pairs of start/end seconds), and the properties reported by `cv2` for the
no-scene fallback, are parameters of the embedding. -/

/-- One scene as returned by the cut-based detector: the dict
`{"start": ..., "end": ..., "transition_type": ...}`. -/
structure SceneOut where
  start : ℚ
  end_ : ℚ
  transition_type : String
deriving DecidableEq, Repr

/-- `detect_scenes(video_path, content_threshold, fade_threshold)`:
post-processing of the raw PySceneDetect scene list `raw` (start/end in
seconds).  `capOpened`, `capFps`, `capFrameCount` model the `cv2.VideoCapture`
used by the empty-list fallback branch. -/
def detect_scenes (raw : List (ℚ × ℚ)) (capOpened : Bool)
    (capFps capFrameCount : ℚ) : List SceneOut :=
  if raw.isEmpty then
    -- no scenes detected: the whole video as a single scene tagged "cut"
    let fps := if capOpened then capFps else 25
    let duration := if capOpened ∧ fps > 0 then capFrameCount / fps else 0
    [{ start := 0
       end_ := if duration > 0 then pyRound2 duration else 1/100
       transition_type := "cut" }]
  else
    raw.enum.map fun p =>
      let i : ℕ := p.1
      let start_time : ℚ := p.2.1
      let end_time : ℚ := p.2.2
      { start := pyRound2 start_time
        end_ := pyRound2 end_time
        transition_type :=
          if i = 0 ∧ (1/5 : ℚ) < start_time ∧ start_time < 2 then "fade-in"
          else "cut" }

/-! ## AI-assisted detection (src/video_analysis/ai_segmentation.py) -/

/-- One utterance-level transcription segment (the dicts built by
`transcribe_audio_whisper`). -/
structure TranscriptSegment where
  start : ℚ
  end_ : ℚ
  text : String
deriving DecidableEq, Repr

/-- Split a character list at every character satisfying `p` (the pieces, in
order, excluding the separators). -/
def splitAux (p : Char → Bool) : List Char → List Char → List (List Char)
  | [], acc => [acc.reverse]
  | c :: rest, acc =>
    if p c then acc.reverse :: splitAux p rest []
    else splitAux p rest (c :: acc)

/-- Python `s.strip()`: drop leading and trailing whitespace. -/
def pyStrip (s : String) : String :=
  (((s.data.dropWhile Char.isWhitespace).reverse.dropWhile
      Char.isWhitespace).reverse).asString

/-- Python `str.split()` with no argument: split on runs of whitespace,
discarding empty pieces. -/
def pySplitWhitespace (s : String) : List String :=
  ((splitAux Char.isWhitespace s.data []).filter (fun w => w ≠ [])).map
    List.asString

/-- `detect_topic_boundaries(segments, min_segment_length=5.0)`. -/
def detect_topic_boundaries (segments : List TranscriptSegment)
    (min_segment_length : ℚ := 5) : List ℚ :=
  segments.enum.foldl
    (fun boundaries p =>
      let segment := p.2
      let text := pyStrip segment.text
      let is_sentence_end :=
        match text.data.getLast? with
        | some c => c = '.' || c = '!' || c = '?'
        | none => false
      let is_long_pause :=
        decide (p.1 < segments.length - 1) &&
          (match segments.get? (p.1 + 1) with
           | some nxt => decide (nxt.start - segment.end_ > 1)
           | none => false)
      let is_question := text.data.contains '?'
      if (is_sentence_end || is_long_pause || is_question) &&
          (match boundaries.getLast? with
           | none => true
           | some b => decide (segment.end_ - b ≥ min_segment_length)) then
        boundaries ++ [segment.end_]
      else boundaries)
    [0]

/-- One scene as returned by the AI-assisted detector (the dict built at the
end of `detect_scenes_ai`). -/
structure AIScene where
  start : ℚ
  end_ : ℚ
  transition_type : String
  transcript : String
  topics : List String
  confidence_score : ℚ
deriving DecidableEq, Repr

/-- Consecutive pairs of a list: `for i in range(len(l) - 1): (l[i], l[i+1])`. -/
def pairsOf : List ℚ → List (ℚ × ℚ)
  | [] => []
  | [_] => []
  | x :: y :: rest => (x, y) :: pairsOf (y :: rest)

/-- The `all_boundaries = set(); ...; sorted(all_boundaries)` step of
`detect_scenes_ai`: every visual scene's start and end plus every topic
boundary, as a sorted duplicate-free list. -/
def sortedBoundaries (visual : List SceneOut) (topic : List ℚ) : List ℚ :=
  List.insertionSort (· ≤ ·)
    ((visual.flatMap fun s => [s.start, s.end_]) ++ topic).dedup

/-- The body of the scene-building loop of `detect_scenes_ai` for one
consecutive boundary pair: `None` when the pair is shorter than 2 s
(`continue`), otherwise the scene dict. -/
def aiSceneOf (topicBoundaries : List ℚ)
    (transcriptSegments : Option (List TranscriptSegment)) (p : ℚ × ℚ) :
    Option AIScene :=
    let start_time := p.1
    let end_time := p.2
    if end_time - start_time < 2 then none
    else
      let segment_transcript :=
        match transcriptSegments with
        | some segs =>
          if segs.isEmpty then ""   -- `if transcript_segments:` is falsy on []
          else
            pyStrip
              (String.intercalate " "
                ((segs.filter fun seg =>
                    seg.start < end_time ∧ seg.end_ > start_time).map
                  fun seg => pyStrip seg.text))
        | none => ""
      let segment_topics : List String :=
        if segment_transcript ≠ "" then
          let words := (pySplitWhitespace segment_transcript).take 5
          if words.isEmpty then [] else [String.intercalate " " words]
        else []
      some
        { start := pyRound2 start_time
          end_ := pyRound2 end_time
          transition_type :=
            if start_time ∈ topicBoundaries then "topic-change" else "cut"
          transcript := segment_transcript
          topics := segment_topics
          confidence_score := if segment_transcript ≠ "" then 4/5 else 3/5 }

/-- Step 3 of `detect_scenes_ai` (lines 203-269): union the boundaries, form
scenes from consecutive boundary pairs, skip scenes shorter than 2 s, and
attach transcript/topic/confidence metadata. -/
def ai_combine (visual : List SceneOut) (topicBoundaries : List ℚ)
    (transcriptSegments : Option (List TranscriptSegment)) : List AIScene :=
  (pairsOf (sortedBoundaries visual topicBoundaries)).filterMap
    (aiSceneOf topicBoundaries transcriptSegments)

/-- `detect_scenes_ai(video_path, content_threshold, fade_threshold)`.
`audioExtracted` models whether `extract_audio_for_transcription` returned a
path; `transcription` models the result of `transcribe_audio_whisper`
(`none` = Whisper unavailable or transcription failed). -/
def detect_scenes_ai (raw : List (ℚ × ℚ)) (capOpened : Bool)
    (capFps capFrameCount : ℚ) (audioExtracted : Bool)
    (transcription : Option (List TranscriptSegment)) : List AIScene :=
  let visual_scenes := detect_scenes raw capOpened capFps capFrameCount
  if visual_scenes.isEmpty then []
  else
    let transcript_segments :=
      if audioExtracted then transcription else none
    let topic_boundaries :=
      match transcript_segments with
      | some segs =>
        if segs.isEmpty then [] else detect_topic_boundaries segs 5
      | none => []
    ai_combine visual_scenes topic_boundaries transcript_segments

/-! ## Metadata extraction (src/backend/video_analysis/extract_metadata.py) -/

/-- The properties reported by `cv2.VideoCapture.get` for the opened capture.
An unopened capture reports 0 for every property. -/
structure CapProps where
  width : ℤ
  height : ℤ
  fps : ℚ
  frame_count : ℤ
deriving DecidableEq, Repr

/-- Audio-track information reported by MoviePy (`clip.audio`). -/
structure AudioInfo where
  channels : ℤ
  fps : ℚ
  duration : ℚ
deriving DecidableEq, Repr

/-- The metadata dict built by `extract_metadata`. -/
structure VideoMetadata where
  duration : ℚ
  fps : ℚ
  width : ℤ
  height : ℤ
  frame_count : ℤ
  audio : Option AudioInfo
deriving DecidableEq, Repr

/-- `extract_metadata(video_path)`.  `capOpened` models
`cv2.VideoCapture(video_path).isOpened()`; `props` the properties the opened
capture reports (an unopened capture reports 0 for everything);
`moviepyOpens` whether the MoviePy fallback can open the file; `audio` the
audio track MoviePy reports (`none` = no audio track).  Returns `none` when
the function prints an error and returns `None` (file unreadable by both
backends). -/
def extract_metadata (capOpened : Bool) (props : CapProps)
    (moviepyOpens : Bool) (audio : Option AudioInfo) : Option VideoMetadata :=
  if ¬ capOpened ∧ ¬ moviepyOpens then none
  else
    -- an unopened `cv2.VideoCapture` reports 0.0 from every `.get`
    let p := if capOpened then props else ⟨0, 0, 0, 0⟩
    let duration : ℚ := if p.fps > 0 then (p.frame_count : ℚ) / p.fps else 0
    if ¬ moviepyOpens then none   -- the audio probe re-opens with MoviePy
    else
      some
        { duration := pyRound3 duration
          fps := pyRound3 p.fps
          width := p.width
          height := p.height
          frame_count := p.frame_count
          audio := audio.map fun a =>
            { channels := a.channels, fps := a.fps,
              duration := pyRound3 a.duration } }

/-! ## Audio energy analysis (src/backend/video_analysis/analyze_audio.py)

The per-interval volume normalization of `analyze_audio` (lines 83-96).  The
interval's RMS value `sqrt(mean(segment**2))` is a nonnegative real reported
by numpy; it enters the embedding as the parameter `rms`. -/

/-- The dict appended to `volume_data` for one interval. -/
structure VolumeSample where
  start : ℚ
  end_ : ℚ
  volume : ℚ
  high_energy : ℤ
deriving DecidableEq, Repr

/-- `normalized_volume = min(1.0, volume / 0.05 if volume > 1e-5 else 0.0)`. -/
def normalized_volume (rms : ℚ) : ℚ :=
  min 1 (if rms > 1/100000 then rms / (5/100) else 0)

/-- The sample built for interval `i` of `analyze_audio` from the interval's
RMS value `rms`. -/
def audio_interval_sample (i : ℕ) (interval duration rms threshold : ℚ) :
    VolumeSample :=
  { start := pyRound2 (i * interval)
    end_ := pyRound2 (min ((i + 1 : ℕ) * interval) duration)
    volume := pyRound3 (normalized_volume rms)
    high_energy := if normalized_volume rms ≥ threshold then 1 else 0 }

/-! ## Segment generation (src/backend/video_segmentation.py) -/

/-- The distinct failure messages raised as `VideoSegmentationError`. -/
inductive VideoSegmentationError where
  | inputNotFound (path : String)
  | ffmpegFailed (code : ℤ) (path : String)
  | outputMissing (path : String)
  | timeoutExpired (path : String)
  | sceneIdMissing
  | unexpected (msg : String)
deriving DecidableEq, Repr

/-- Outcome of the `subprocess.run` call for one FFmpeg invocation. -/
inductive ProcOutcome where
  | exited (returncode : ℤ)
  | timedOut
deriving DecidableEq, Repr

/-- The environment one `generate_segment` call runs in: whether the source
file exists, how the FFmpeg subprocess ends, whether the output file exists
after it, and whether some unexpected exception interrupts the body (e.g.
`os.makedirs` failing). -/
structure SegEnv where
  sourceExists : Bool
  outcome : ProcOutcome
  outputExistsAfter : Bool
  unexpectedExc : Option String
deriving DecidableEq, Repr

/-- `generate_segment(original, output, start, duration, settings, overwrite)`.
Mirrors the try/except body: any unexpected exception and the timeout are
re-raised as `VideoSegmentationError`; otherwise the input-existence check,
the return-code check and the output-existence check run in order, and the
function returns `True`. -/
def generate_segment (env : SegEnv) (original output : String) :
    Except VideoSegmentationError Bool :=
  match env.unexpectedExc with
  | some m => .error (.unexpected m)
  | none =>
    if ¬ env.sourceExists then .error (.inputNotFound original)
    else
      match env.outcome with
      | .timedOut => .error (.timeoutExpired output)
      | .exited code =>
        if code ≠ 0 then .error (.ffmpegFailed code output)
        else if ¬ env.outputExistsAfter then .error (.outputMissing output)
        else .ok true

/-- Python `s.split(sep)` for a one-character separator. -/
def pySplitChar (sep : Char) (s : String) : List String :=
  (splitAux (· = sep) s.data []).map List.asString

/-- Python `os.path.basename` / `s.split('/')[-1]` on the `/`-separated
paths and URLs this code builds. -/
def pyBasename (p : String) : String :=
  ((pySplitChar '/' p).getLast?).getD ""

/-- The URL-suffix dict returned by `regenerate_scene_segments`. -/
structure RegenOut where
  proxy_video_path : Option String
  proxy_video_url : Option String
  mezzanine_video_path : Option String
  mezzanine_video_url : Option String
deriving DecidableEq, Repr

/-- `regenerate_scene_segments(...)` (lines 219-300).  `proxyEnv`/`mezzEnv`
model the environments of the two inner `generate_segment` calls.  Each
per-tier `VideoSegmentationError` is caught and logged; only a missing
`sceneId` raises. -/
def regenerate_scene_segments (sceneId : Option String) (analysisId : String)
    (segments_base_dir : String)
    (existing_proxy_path existing_mezzanine_path : Option String)
    (original_video_path : String) (proxyEnv mezzEnv : SegEnv) :
    Except VideoSegmentationError RegenOut :=
  match sceneId with
  | none => .error .sceneIdMissing
  | some sid =>
    let dir := segments_base_dir ++ "/" ++ analysisId ++ "/segments"
    let proxyPath :=
      existing_proxy_path.getD (dir ++ "/proxy/scene_" ++ sid ++ "_proxy.mp4")
    let mezzPath :=
      existing_mezzanine_path.getD
        (dir ++ "/mezzanine/scene_" ++ sid ++ "_mezzanine.mp4")
    let proxyOk := (generate_segment proxyEnv original_video_path proxyPath).isOk
    let mezzOk := (generate_segment mezzEnv original_video_path mezzPath).isOk
    .ok
      { proxy_video_path := if proxyOk then some proxyPath else none
        proxy_video_url :=
          if proxyOk then
            some ("/api/segment/" ++ analysisId ++ "/proxy/" ++
              pyBasename proxyPath)
          else none
        mezzanine_video_path := if mezzOk then some mezzPath else none
        mezzanine_video_url :=
          if mezzOk then
            some ("/api/segment/" ++ analysisId ++ "/mezzanine/" ++
              pyBasename mezzPath)
          else none }

/-! ## The trim endpoint (src/backend/main.py, trim_scene_segment) -/

/-- The scene record stored in an analysis (the JSON dict fields the trim
endpoint reads and writes; optional fields model dict keys that may be
absent). -/
structure Scene where
  sceneId : Option String
  start : ℚ
  end_ : ℚ
  duration : ℚ
  start_original : Option ℚ
  end_original : Option ℚ
  current_trimmed_start : Option ℚ
  current_trimmed_duration : Option ℚ
  proxy_video_url : Option String
  mezzanine_video_url : Option String
deriving DecidableEq, Repr

/-- The stored analysis record the endpoint loads, mutates and saves. -/
structure AnalysisData where
  storedVideoPath : Option String
  scenes : List Scene
deriving DecidableEq, Repr

/-- FastAPI `HTTPException` statuses raised by the endpoint. -/
inductive HTTPError where
  | notFound (detail : String)
  | internalError (detail : String)
deriving DecidableEq, Repr

/-- The scene-lookup loop: first scene whose `sceneId` equals the requested
id, with its index. -/
def findScene : List Scene → String → Option (ℕ × Scene)
  | [], _ => none
  | s :: rest, sid =>
    if s.sceneId = some sid then some (0, s)
    else (findScene rest sid).map fun p => (p.1 + 1, p.2)

/-- `trim_scene_segment(analysis_id, scene_id, trim_data)` (main.py lines
1025-1125).  `analysis` is the loaded analysis record (`none` = not found),
`videoExists` whether the stored source video exists on disk, `rs`/`rd` are
`trim_data.new_clip_start_time` / `new_clip_duration` (validated `ge=0` /
`gt=0` by the request model), and `proxyEnv`/`mezzEnv` model the two FFmpeg
invocations inside `regenerate_scene_segments`.  On success returns the
updated scene together with the analysis record passed to
`save_analysis_data`; on failure, nothing is saved. -/
def trim_scene_segment (analysis : Option AnalysisData) (videoExists : Bool)
    (analysisId sceneId : String) (rs rd : ℚ) (analyzedVideosDir : String)
    (proxyEnv mezzEnv : SegEnv) : Except HTTPError (Scene × AnalysisData) :=
  match analysis with
  | none => .error (.notFound "Analysis not found")
  | some a =>
    match a.storedVideoPath with
    | none =>
      .error (.notFound "Original full video for analysis not found on server.")
    | some vp =>
      if ¬ videoExists then
        .error
          (.notFound "Original full video for analysis not found on server.")
      else
        match findScene a.scenes sceneId with
        | none => .error (.notFound ("Scene with ID " ++ sceneId ++ " not found."))
        | some (i, target) =>
          let current_segment_start_original :=
            target.start_original.getD target.start
          let new_absolute_start := current_segment_start_original + rs
          let existing_proxy_path := target.proxy_video_url.map fun u =>
            analyzedVideosDir ++ "/" ++ analysisId ++ "/segments/proxy/" ++
              pyBasename u
          let existing_mezzanine_path := target.mezzanine_video_url.map fun u =>
            analyzedVideosDir ++ "/" ++ analysisId ++ "/segments/mezzanine/" ++
              pyBasename u
          match regenerate_scene_segments target.sceneId analysisId
              analyzedVideosDir existing_proxy_path existing_mezzanine_path
              vp proxyEnv mezzEnv with
          | .error _ =>
            .error (.internalError "Failed to regenerate video segments")
          | .ok regen =>
            let updated : Scene :=
              { target with
                start_original := some new_absolute_start
                end_original := some (new_absolute_start + rd)
                start := new_absolute_start
                end_ := new_absolute_start + rd
                duration := rd
                -- `**{k: v for k, v in regenerated.items() if k.endswith("_url")}`:
                -- only URL keys present in the regeneration result overwrite
                proxy_video_url :=
                  regen.proxy_video_url.orElse fun _ => target.proxy_video_url
                mezzanine_video_url :=
                  regen.mezzanine_video_url.orElse fun _ =>
                    target.mezzanine_video_url
                current_trimmed_start := some 0
                current_trimmed_duration := some rd }
            .ok (updated, { a with scenes := a.scenes.set i updated })

/-! ## Timeline export (src/backend/video_export.py) -/

/-- One timeline clip as read from the timeline structure
(`trackItemsMap` values or the legacy `clips` array).  `displayFrom` /
`displayTo` are `display.from` / `display.to` (defaulting to 0). -/
structure Clip where
  id : Option String
  type : String
  isMezzanineSegment : Bool
  src : String
  displayFrom : ℚ
  displayTo : ℚ
  sceneId : Option String
deriving DecidableEq, Repr

/-- The `VideoExportError` values the module raises, by raise site. -/
inductive VideoExportError where
  | noClips
  | noMezzanine
  | missingSegment (path : String)
  | segmentFileNotFound (path : String)
  | noValidSegments
  | ffmpegFailed
  | outputNotCreated
deriving DecidableEq, Repr

/-- One entry of the segment list built by `extract_timeline_segments`. -/
structure Segment where
  file_path : String
  timeline_start : ℚ
  timeline_end : ℚ
  scene_id : Option String
  clip_id : Option String
deriving DecidableEq, Repr

/-- The mezzanine filter: `clip_type == 'video' and is_mezzanine and has_src`. -/
def mezzanineFilter (clips : List Clip) : List Clip :=
  clips.filter fun c =>
    c.type == "video" && c.isMezzanineSegment && !c.src.isEmpty

/-- `filename = src_url.split('/')[-1].split('?')[0]` resolved under the
mezzanine directory for the analysis. -/
def resolveSegmentPath (segments_base_dir analysisId : String) (c : Clip) :
    String :=
  let filename := ((pySplitChar '?' (pyBasename c.src)).headD "")
  segments_base_dir ++ "/" ++ analysisId ++ "/segments/mezzanine/" ++ filename

/-- The segment dict appended for one clip. -/
def buildSegment (segments_base_dir analysisId : String) (c : Clip) : Segment :=
  { file_path := resolveSegmentPath segments_base_dir analysisId c
    timeline_start := c.displayFrom
    timeline_end := c.displayTo
    scene_id := c.sceneId
    clip_id := c.id }

/-- The per-clip loop of `extract_timeline_segments` (lines 104-126): skip
clips without `src`, raise on a missing file, append otherwise.  `fs` is the
file-existence oracle (`os.path.exists`). -/
def extractLoop (fs : String → Bool) (segments_base_dir analysisId : String) :
    List Clip → Except VideoExportError (List Segment)
  | [] => .ok []
  | c :: rest =>
    if c.src.isEmpty then extractLoop fs segments_base_dir analysisId rest
    else if ¬ fs (resolveSegmentPath segments_base_dir analysisId c) then
      .error (.missingSegment (resolveSegmentPath segments_base_dir analysisId c))
    else
      (extractLoop fs segments_base_dir analysisId rest).map
        fun segs => buildSegment segments_base_dir analysisId c :: segs

/-- `extract_timeline_segments(timeline_data, analysis_id, segments_base_dir)`:
filter mezzanine video clips, sort them by `display.from` (Python's stable
`list.sort`), then resolve and check each file. -/
def extract_timeline_segments (clips : List Clip)
    (analysisId segments_base_dir : String) (fs : String → Bool) :
    Except VideoExportError (List Segment) :=
  if clips.isEmpty then .error .noClips
  else
    let mezzanine_clips := mezzanineFilter clips
    if mezzanine_clips.isEmpty then .error .noMezzanine
    else
      extractLoop fs segments_base_dir analysisId
        (List.insertionSort (fun a b => a.displayFrom ≤ b.displayFrom)
          mezzanine_clips)

/-- `create_ffmpeg_concat_file(segments, temp_dir)`: the lines written to the
concat manifest, in order, re-checking that each file exists. -/
def create_ffmpeg_concat_file (fs : String → Bool) :
    List Segment → Except VideoExportError (List String)
  | [] => .ok []
  | s :: rest =>
    if fs s.file_path then
      (create_ffmpeg_concat_file fs rest).map
        fun ls => ("file '" ++ s.file_path ++ "'") :: ls
    else .error (.segmentFileNotFound s.file_path)

/-- Outcome of the FFmpeg concatenation subprocess. -/
structure FfmpegEnv where
  returncode : ℤ
  outputExists : Bool
  outputSize : ℕ
deriving DecidableEq, Repr

/-- The success dict returned by `export_timeline_to_mp4`. -/
structure ExportResult where
  success : Bool
  output_path : String
  file_size : ℕ
  segments_count : ℕ
deriving DecidableEq, Repr

/-- Result of one `export_timeline_to_mp4` call together with its observable
side effects: whether the transcoder subprocess was invoked, and whether an
output file was written (only the transcoder writes the output path). -/
structure ExportOutcome where
  result : Except VideoExportError ExportResult
  transcoderInvoked : Bool
  outputWritten : Bool
deriving Repr

/-- `export_timeline_to_mp4(timeline_data, analysis_id, segments_base_dir,
output_path, composition_settings)` (lines 132-237).  The composition
settings only change the FFmpeg argument list, not the control flow modelled
here. -/
def export_timeline_to_mp4 (clips : List Clip)
    (analysisId segments_base_dir output_path : String) (fs : String → Bool)
    (ffmpeg : FfmpegEnv) : ExportOutcome :=
  match extract_timeline_segments clips analysisId segments_base_dir fs with
  | .error e => ⟨.error e, false, false⟩
  | .ok segments =>
    if segments.isEmpty then ⟨.error .noValidSegments, false, false⟩
    else
      match create_ffmpeg_concat_file fs segments with
      | .error e => ⟨.error e, false, false⟩
      | .ok _lines =>
        if ffmpeg.returncode ≠ 0 then
          ⟨.error .ffmpegFailed, true, ffmpeg.outputExists⟩
        else if ¬ ffmpeg.outputExists then
          ⟨.error .outputNotCreated, true, false⟩
        else
          ⟨.ok { success := true, output_path := output_path,
                 file_size := ffmpeg.outputSize,
                 segments_count := segments.length }, true, true⟩

/-! ## Supporting lemmas -/

theorem findScene_sceneId :
    ∀ {l : List Scene} {sid : String} {i : ℕ} {t : Scene},
      findScene l sid = some (i, t) → t.sceneId = some sid := by
  intro l
  induction l with
  | nil => intro sid i t h; simp [findScene] at h
  | cons s rest ih =>
    intro sid i t h
    by_cases hs : s.sceneId = some sid
    · simp only [findScene, if_pos hs, Option.some.injEq, Prod.mk.injEq] at h
      exact h.2 ▸ hs
    · simp only [findScene, if_neg hs, Option.map_eq_some'] at h
      obtain ⟨p, hp, heq⟩ := h
      cases heq
      exact ih hp

/-- Projecting the AI scenes to their (start, end) pairs factors through the
shorter-than-2s filter on consecutive boundary pairs. -/
theorem filterMap_aiSceneOf_map_ends (topicB : List ℚ)
    (ts : Option (List TranscriptSegment)) :
    ∀ l : List (ℚ × ℚ),
      ((l.filterMap (aiSceneOf topicB ts)).map fun s => (s.start, s.end_)) =
        ((l.filter fun p => decide (¬ (p.2 - p.1 < 2))).map
          fun p => (pyRound2 p.1, pyRound2 p.2))
  | [] => rfl
  | p :: rest => by
    by_cases h : p.2 - p.1 < 2
    · simp [aiSceneOf, h, filterMap_aiSceneOf_map_ends topicB ts rest]
    · simp only [aiSceneOf, h, filterMap_aiSceneOf_map_ends topicB ts rest,
        List.filterMap_cons, if_neg h, List.map_cons]
      rw [List.filter_cons_of_pos (by simpa using not_lt.mp h)]
      simpa using filterMap_aiSceneOf_map_ends topicB ts rest

/-! ## Claim-side definitions

These two definitions follow the wording of the specification (not the
source) and exist to be compared with the source-derived definitions. -/

/-- Claim C9's description of the volume normalization: the interval's RMS
divided by the reference level 0.05 and clamped to `[0, 1]`, except that an
RMS at or below `1e-5` yields volume 0. -/
def specNormalizedVolume (rms : ℚ) : ℚ :=
  if rms ≤ 1/100000 then 0 else max 0 (min 1 (rms / (5/100)))

/-- Claim C8's description of the reported duration: `frame_count / frame_rate`
when `frame_rate > 0`, otherwise a decoder-reported duration. -/
def specMetadataDuration (fps : ℚ) (frame_count : ℤ) (decoderReported : ℚ) : ℚ :=
  if fps > 0 then (frame_count : ℚ) / fps else decoderReported

/-! ## Claims -/

/-- C9: for every audio interval, the reported volume is the interval's RMS
divided by the reference level 0.05 and clamped to `[0, 1]`, except that an
RMS at or below `1e-5` yields volume 0; the `high_energy` flag is set exactly
when the normalized volume is at least the threshold; and every returned
sample's (3-decimal-rounded) volume lies in `[0, 1]`. -/
theorem analyze_audio_volume_normalization (rms threshold : ℚ) (i : ℕ)
    (interval duration : ℚ) :
    normalized_volume rms = specNormalizedVolume rms ∧
    ((audio_interval_sample i interval duration rms threshold).high_energy = 1 ↔
      threshold ≤ normalized_volume rms) ∧
    (audio_interval_sample i interval duration rms threshold).volume =
      pyRound3 (normalized_volume rms) ∧
    0 ≤ (audio_interval_sample i interval duration rms threshold).volume ∧
    (audio_interval_sample i interval duration rms threshold).volume ≤ 1 := by
  have hnv01 : 0 ≤ normalized_volume rms ∧ normalized_volume rms ≤ 1 := by
    constructor
    · unfold normalized_volume
      rcases le_or_lt rms (1/100000) with h | h
      · rw [if_neg (not_lt.mpr h)]; norm_num
      · rw [if_pos h]
        have : (0:ℚ) ≤ rms / (5/100) := by positivity
        exact le_min (by norm_num) this
    · exact min_le_left _ _
  refine ⟨?_, ?_, rfl, ?_, ?_⟩
  · unfold normalized_volume specNormalizedVolume
    rcases le_or_lt rms (1/100000) with h | h
    · rw [if_neg (not_lt.mpr h), if_pos h]
      norm_num
    · rw [if_pos h, if_neg (not_le.mpr h)]
      have h1 : (0:ℚ) ≤ min 1 (rms / (5/100)) := by
        have : (0:ℚ) ≤ rms / (5/100) := by positivity
        exact le_min (by norm_num) this
      exact (max_eq_right h1).symm
  · unfold audio_interval_sample
    dsimp only
    constructor
    · intro h
      by_contra hc
      rw [if_neg (by exact fun hge => hc hge)] at h
      exact absurd h (by norm_num)
    · intro h
      rw [if_pos h]
  · exact pyRound3_nonneg hnv01.1
  · exact pyRound3_le_one hnv01.2

/-- C10: `generate_segment` never returns `False`: it either returns `True`
(and then the source file existed before the transcoder ran and the output
file exists afterwards) or raises `VideoSegmentationError`. -/
theorem generate_segment_never_false (env : SegEnv) (original output : String) :
    (∃ e, generate_segment env original output = .error e) ∨
    (generate_segment env original output = .ok true ∧
      env.sourceExists = true ∧ env.outputExistsAfter = true) := by
  obtain ⟨src, outc, outa, exc⟩ := env
  cases exc with
  | some m => exact .inl ⟨.unexpected m, rfl⟩
  | none =>
    cases src with
    | false => exact .inl ⟨.inputNotFound original, rfl⟩
    | true =>
      cases outc with
      | timedOut => exact .inl ⟨.timeoutExpired output, rfl⟩
      | exited code =>
        by_cases hc : code = 0
        · subst hc
          cases outa with
          | false => exact .inl ⟨.outputMissing output, by simp [generate_segment]⟩
          | true => exact .inr ⟨by simp [generate_segment], rfl, rfl⟩
        · exact .inl ⟨.ffmpegFailed code output, by simp [generate_segment, hc]⟩

/-- C4: after a successful trim of a scene with recorded `start_original` by
`rs ≥ 0` and `rd > 0`, the updated scene has `start_original = old + rs`,
`end_original - start_original = rd` (exactly, in this rational model),
`current_trimmed_start = 0` and `current_trimmed_duration = rd`, and the
analysis saved to disk holds the updated scene at the scene's index. -/
theorem trim_success_resets_baseline (a : AnalysisData)
    (analysisId sceneId : String) (rs rd : ℚ) (dir vp : String)
    (pe me : SegEnv) (i : ℕ) (target : Scene) (s0 : ℚ)
    (hvp : a.storedVideoPath = some vp)
    (hfind : findScene a.scenes sceneId = some (i, target))
    (hrec : target.start_original = some s0)
    (_hrs : 0 ≤ rs) (_hrd : 0 < rd) :
    ∃ u saved,
      trim_scene_segment (some a) true analysisId sceneId rs rd dir pe me =
        .ok (u, saved) ∧
      u.start_original = some (s0 + rs) ∧
      u.end_original = some (s0 + rs + rd) ∧
      (∀ s e, u.start_original = some s → u.end_original = some e →
        e - s = rd) ∧
      u.current_trimmed_start = some 0 ∧
      u.current_trimmed_duration = some rd ∧
      saved = { a with scenes := a.scenes.set i u } := by
  have hsid : target.sceneId = some sceneId := findScene_sceneId hfind
  simp only [trim_scene_segment, hvp, hfind, hsid, regenerate_scene_segments,
    hrec, Option.getD_some, Bool.not_true, if_neg, ite_false,
    not_true_eq_false]
  refine ⟨_, _, rfl, rfl, rfl, ?_, rfl, rfl, rfl⟩
  intro s e hs he
  simp only [Option.some.injEq] at hs he
  rw [← hs, ← he]; ring

/-- Witness for `trim_success_resets_baseline`: trimming the single scene of
a concrete stored analysis by `rs = 2`, `rd = 5`. -/
theorem trim_success_resets_baseline_witness :
    ∃ u saved,
      trim_scene_segment
        (some { storedVideoPath := some "/store/a1/video.mp4",
                scenes := [{ sceneId := some "s1", start := 10, end_ := 20,
                             duration := 10, start_original := some 10,
                             end_original := some 20,
                             current_trimmed_start := some 0,
                             current_trimmed_duration := some 10,
                             proxy_video_url := none,
                             mezzanine_video_url := none }] })
        true "a1" "s1" 2 5 "/store"
        ⟨true, .exited 0, true, none⟩ ⟨true, .exited 0, true, none⟩ =
        .ok (u, saved) ∧
      u.start_original = some (10 + 2) ∧
      u.end_original = some (10 + 2 + 5) ∧
      (∀ s e, u.start_original = some s → u.end_original = some e →
        e - s = 5) ∧
      u.current_trimmed_start = some 0 ∧
      u.current_trimmed_duration = some 5 ∧
      saved = { storedVideoPath := some "/store/a1/video.mp4",
                scenes := [u] } := by
  obtain ⟨u, saved, h1, h2, h3, h4, h5, h6, h7⟩ :=
    trim_success_resets_baseline
      { storedVideoPath := some "/store/a1/video.mp4",
        scenes := [{ sceneId := some "s1", start := 10, end_ := 20,
                     duration := 10, start_original := some 10,
                     end_original := some 20, current_trimmed_start := some 0,
                     current_trimmed_duration := some 10,
                     proxy_video_url := none, mezzanine_video_url := none }] }
      "a1" "s1" 2 5 "/store" "/store/a1/video.mp4"
      ⟨true, .exited 0, true, none⟩ ⟨true, .exited 0, true, none⟩
      0
      { sceneId := some "s1", start := 10, end_ := 20, duration := 10,
        start_original := some 10, end_original := some 20,
        current_trimmed_start := some 0, current_trimmed_duration := some 10,
        proxy_video_url := none, mezzanine_video_url := none }
      10 rfl (by simp [findScene]) rfl (by norm_num) (by norm_num)
  exact ⟨u, saved, h1, h2, h3, h4, h5, h6, h7⟩

/-- C3 (code bug made concrete): when both FFmpeg regenerations fail during a
trim (`regenerate_scene_segments` swallows each tier's error and returns an
empty dict), the endpoint still reports success and persists the rewritten
scene metadata: the saved scene's `start_original` moves from 10 to 12 while
its segment URLs stay stale.  The stored analysis record is mutated even
though the trim's segment regeneration failed. -/
theorem trim_failure_still_mutates_metadata :
    (trim_scene_segment
        (some { storedVideoPath := some "/store/a1/video.mp4",
                scenes := [{ sceneId := some "s1", start := 10, end_ := 20,
                             duration := 10, start_original := some 10,
                             end_original := some 20,
                             current_trimmed_start := some 0,
                             current_trimmed_duration := some 10,
                             proxy_video_url :=
                               some "/api/segment/a1/proxy/scene_s1_proxy.mp4",
                             mezzanine_video_url :=
                               some "/api/segment/a1/mezzanine/scene_s1_mezzanine.mp4" }] })
        true "a1" "s1" 2 5 "/store"
        ⟨true, .exited 1, false, none⟩ ⟨true, .exited 1, false, none⟩) =
      .ok
        ({ sceneId := some "s1", start := 12, end_ := 17, duration := 5,
           start_original := some 12, end_original := some 17,
           current_trimmed_start := some 0, current_trimmed_duration := some 5,
           proxy_video_url := some "/api/segment/a1/proxy/scene_s1_proxy.mp4",
           mezzanine_video_url :=
             some "/api/segment/a1/mezzanine/scene_s1_mezzanine.mp4" },
         { storedVideoPath := some "/store/a1/video.mp4",
           scenes := [{ sceneId := some "s1", start := 12, end_ := 17,
                        duration := 5, start_original := some 12,
                        end_original := some 17,
                        current_trimmed_start := some 0,
                        current_trimmed_duration := some 5,
                        proxy_video_url :=
                          some "/api/segment/a1/proxy/scene_s1_proxy.mp4",
                        mezzanine_video_url :=
                          some "/api/segment/a1/mezzanine/scene_s1_mezzanine.mp4" }] }) ∧
    some (10:ℚ) ≠ some (12:ℚ) := by
  constructor
  · norm_num [trim_scene_segment, findScene, regenerate_scene_segments,
      generate_segment, pyBasename, Except.isOk, Except.toBool, Option.orElse]
  · simp

/-- C8 counterexample: a readable capture reporting `fps = 0` and
`frame_count = 100` yields a metadata duration of exactly 0, not the
decoder-reported duration (here 12 s) the claim prescribes for that case. -/
theorem extract_metadata_duration_counterexample :
    (extract_metadata true ⟨640, 360, 0, 100⟩ true none) =
      some { duration := 0, fps := 0, width := 640, height := 360,
             frame_count := 100, audio := none } ∧
    specMetadataDuration 0 100 12 = 12 ∧
    (0 : ℚ) ≠ 12 := by
  refine ⟨?_, ?_, by norm_num⟩
  · norm_num [extract_metadata, pyRound3, roundHalfEven]
  · simp [specMetadataDuration]

/-- C8 (amended): whenever the file is readable (MoviePy can open it — also
required by the audio probe), the reported duration is
`round(frame_count / fps, 3)` when `fps > 0` and exactly 0 otherwise; no
decoder-reported duration is ever substituted. -/
theorem extract_metadata_duration_amended (capOpened : Bool) (props : CapProps)
    (audio : Option AudioInfo) :
    (extract_metadata capOpened props true audio).map VideoMetadata.duration =
      some
        (pyRound3
          (if (if capOpened then props else ⟨0, 0, 0, 0⟩).fps > 0 then
            ((if capOpened then props else ⟨0, 0, 0, 0⟩).frame_count : ℚ) /
              (if capOpened then props else ⟨0, 0, 0, 0⟩).fps
          else 0)) := by
  cases capOpened <;> simp [extract_metadata]

/-- C7: the final AI scene breakpoints are the sorted duplicate-free union of
the visual boundary timestamps and the topic boundary timestamps; scenes are
formed from consecutive breakpoint pairs with every scene shorter than 2.0 s
discarded; and in particular visual boundaries {0, 4, 9, 12} unioned with
topic boundaries {6} yield breakpoints [0, 4, 6, 9, 12] and exactly 4
scenes. -/
theorem ai_boundary_merge_spec :
    (∀ (visual : List SceneOut) (topic : List ℚ),
       (sortedBoundaries visual topic).Sorted (· ≤ ·) ∧
       (sortedBoundaries visual topic).Nodup ∧
       (∀ x, x ∈ sortedBoundaries visual topic ↔
          x ∈ visual.map SceneOut.start ∨ x ∈ visual.map SceneOut.end_ ∨
            x ∈ topic)) ∧
    (∀ (visual : List SceneOut) (topic : List ℚ)
       (ts : Option (List TranscriptSegment)),
       (ai_combine visual topic ts).map (fun s => (s.start, s.end_)) =
         ((pairsOf (sortedBoundaries visual topic)).filter
             (fun p => decide (¬ (p.2 - p.1 < 2)))).map
           (fun p => (pyRound2 p.1, pyRound2 p.2))) ∧
    sortedBoundaries [⟨0, 4, "cut"⟩, ⟨4, 9, "cut"⟩, ⟨9, 12, "cut"⟩] [6] =
      [0, 4, 6, 9, 12] ∧
    (ai_combine [⟨0, 4, "cut"⟩, ⟨4, 9, "cut"⟩, ⟨9, 12, "cut"⟩] [6] none).map
      (fun s => (s.start, s.end_)) = [(0, 4), (4, 6), (6, 9), (9, 12)] ∧
    (ai_combine [⟨0, 4, "cut"⟩, ⟨4, 9, "cut"⟩, ⟨9, 12, "cut"⟩] [6] none).length
      = 4 := by
  have hbound : sortedBoundaries [⟨0, 4, "cut"⟩, ⟨4, 9, "cut"⟩, ⟨9, 12, "cut"⟩]
      [6] = [0, 4, 6, 9, 12] := by
    norm_num [sortedBoundaries, List.dedup, List.pwFilter,
      List.insertionSort, List.orderedInsert]
  have hr := pyRound2_intCast
  have hmap : (ai_combine [⟨0, 4, "cut"⟩, ⟨4, 9, "cut"⟩, ⟨9, 12, "cut"⟩] [6]
      none).map (fun s => (s.start, s.end_)) =
      [(0, 4), (4, 6), (6, 9), (9, 12)] := by
    rw [ai_combine, filterMap_aiSceneOf_map_ends, hbound]
    have h0 := hr 0; have h4 := hr 4; have h6 := hr 6
    have h9 := hr 9; have h12 := hr 12
    push_cast at h0 h4 h6 h9 h12
    norm_num [pairsOf, h0, h4, h6, h9, h12]
  refine ⟨fun visual topic => ⟨?_, ?_, ?_⟩, ?_, hbound, hmap, ?_⟩
  · exact List.sorted_insertionSort _ _
  · exact ((List.perm_insertionSort _ _).nodup_iff).mpr (List.nodup_dedup _)
  · intro x
    simp only [sortedBoundaries, List.mem_insertionSort, List.mem_dedup,
      List.mem_append, List.mem_flatMap, List.mem_map]
    constructor
    · rintro (⟨s, hs, hx⟩ | hx)
      · simp only [List.mem_cons, List.mem_singleton] at hx
        rcases hx with hx | hx | hx
        · exact .inl ⟨s, hs, hx.symm⟩
        · exact .inr (.inl ⟨s, hs, hx.symm⟩)
        · simp at hx
      · exact .inr (.inr hx)
    · rintro (⟨s, hs, hx⟩ | ⟨s, hs, hx⟩ | hx)
      · exact .inl ⟨s, hs, by simp [hx]⟩
      · exact .inl ⟨s, hs, by simp [hx]⟩
      · exact .inr hx
  · intro visual topic ts
    exact filterMap_aiSceneOf_map_ends topic ts _
  · have := congrArg List.length hmap
    simpa using this

/-! ### Export loop lemmas -/

theorem extractLoop_ok_of_all_exist (fs : String → Bool) (dir aid : String) :
    ∀ l : List Clip, (∀ c ∈ l, c.src.isEmpty = false) →
      (∀ c ∈ l, fs (resolveSegmentPath dir aid c) = true) →
      extractLoop fs dir aid l = .ok (l.map (buildSegment dir aid))
  | [], _, _ => rfl
  | c :: rest, hsrc, hfs => by
    have h1 : c.src.isEmpty = false := hsrc c (by simp)
    have h2 : fs (resolveSegmentPath dir aid c) = true := hfs c (by simp)
    have ih := extractLoop_ok_of_all_exist fs dir aid rest
      (fun d hd => hsrc d (by simp [hd])) (fun d hd => hfs d (by simp [hd]))
    simp [extractLoop, h1, h2, ih, Except.map]

theorem extractLoop_error_shape (fs : String → Bool) (dir aid : String) :
    ∀ l : List Clip,
      (∃ segs, extractLoop fs dir aid l = .ok segs) ∨
      (∃ p, extractLoop fs dir aid l = .error (.missingSegment p) ∧ fs p = false)
  | [] => .inl ⟨[], rfl⟩
  | c :: rest => by
    by_cases h1 : c.src.isEmpty
    · have := extractLoop_error_shape fs dir aid rest
      simpa [extractLoop, h1] using this
    · by_cases h2 : fs (resolveSegmentPath dir aid c)
      · rcases extractLoop_error_shape fs dir aid rest with ⟨segs, hs⟩ | ⟨p, hp, hfp⟩
        · exact .inl ⟨buildSegment dir aid c :: segs,
            by simp [extractLoop, h1, h2, hs, Except.map]⟩
        · exact .inr ⟨p, by simp [extractLoop, h1, h2, hp, Except.map], hfp⟩
      · exact .inr ⟨resolveSegmentPath dir aid c,
          by simp [extractLoop, h1, h2], by simpa using h2⟩

theorem extractLoop_ok_all_exist (fs : String → Bool) (dir aid : String) :
    ∀ {l : List Clip} {segs : List Segment},
      extractLoop fs dir aid l = .ok segs →
      ∀ c ∈ l, c.src.isEmpty = true ∨ fs (resolveSegmentPath dir aid c) = true
  | [], _, _, c, hc => by simp at hc
  | c :: rest, segs, h, d, hd => by
    by_cases h1 : c.src.isEmpty
    · rw [extractLoop, if_pos h1] at h
      rcases List.mem_cons.mp hd with rfl | hd'
      · exact .inl h1
      · exact extractLoop_ok_all_exist fs dir aid h d hd'
    · by_cases h2 : fs (resolveSegmentPath dir aid c) = true
      · rcases List.mem_cons.mp hd with rfl | hd'
        · exact .inr h2
        · rw [extractLoop, if_neg h1, if_neg (by simp [h2])] at h
          rcases hrest : extractLoop fs dir aid rest with e | segs'
          · rw [hrest] at h; simp [Except.map] at h
          · exact extractLoop_ok_all_exist fs dir aid hrest d hd'
      · rw [extractLoop, if_neg h1, if_pos h2] at h
        simp at h

theorem create_ffmpeg_concat_file_ok (fs : String → Bool) :
    ∀ segs : List Segment, (∀ s ∈ segs, fs s.file_path = true) →
      create_ffmpeg_concat_file fs segs =
        .ok (segs.map fun s => "file '" ++ s.file_path ++ "'")
  | [], _ => rfl
  | s :: rest, hfs => by
    have h1 : fs s.file_path = true := hfs s (by simp)
    have ih := create_ffmpeg_concat_file_ok fs rest
      (fun d hd => hfs d (by simp [hd]))
    simp [create_ffmpeg_concat_file, h1, ih, Except.map]

/-- C5: when every mezzanine placement resolves to an existing file, the
export's concatenation manifest lists the segment paths sorted by
`timeline_start` ascending, ties broken by original placement order (a stable
sort of the filtered placements), regardless of the order the placements
appear in the timeline structure. -/
theorem export_manifest_sorted_by_timeline_start (clips : List Clip)
    (analysisId dir : String) (fs : String → Bool)
    (hne : mezzanineFilter clips ≠ [])
    (hex : ∀ c ∈ mezzanineFilter clips,
      fs (resolveSegmentPath dir analysisId c) = true) :
    ∃ segments,
      extract_timeline_segments clips analysisId dir fs = .ok segments ∧
      create_ffmpeg_concat_file fs segments =
        .ok (segments.map fun s => "file '" ++ s.file_path ++ "'") ∧
      segments.Pairwise (fun a b => a.timeline_start ≤ b.timeline_start) ∧
      segments.Perm ((mezzanineFilter clips).map (buildSegment dir analysisId)) ∧
      (∀ a b : Clip, List.Sublist [a, b] (mezzanineFilter clips) →
        a.displayFrom ≤ b.displayFrom →
        List.Sublist [buildSegment dir analysisId a,
          buildSegment dir analysisId b] segments) := by
  haveI hTot : IsTotal Clip (fun a b => a.displayFrom ≤ b.displayFrom) :=
    ⟨fun a b => le_total a.displayFrom b.displayFrom⟩
  haveI hTrans : IsTrans Clip (fun a b => a.displayFrom ≤ b.displayFrom) :=
    ⟨fun _ _ _ hab hbc => le_trans hab hbc⟩
  have hclips : clips ≠ [] := by
    intro h; exact hne (by simp [mezzanineFilter, h])
  set M := mezzanineFilter clips with hM
  set L := List.insertionSort (fun a b => a.displayFrom ≤ b.displayFrom) M
    with hL
  have hmemL : ∀ c ∈ L, c ∈ M := fun c hc => (List.mem_insertionSort _).mp hc
  have hsrcM : ∀ c ∈ M, c.src.isEmpty = false := by
    intro c hc
    have := List.of_mem_filter (p := fun c : Clip =>
      c.type == "video" && c.isMezzanineSegment && !c.src.isEmpty) hc
    simp only [Bool.and_eq_true, Bool.not_eq_true'] at this
    exact this.2
  have hloop : extractLoop fs dir analysisId L =
      .ok (L.map (buildSegment dir analysisId)) :=
    extractLoop_ok_of_all_exist fs dir analysisId L
      (fun c hc => hsrcM c (hmemL c hc))
      (fun c hc => hex c (hmemL c hc))
  have hext : extract_timeline_segments clips analysisId dir fs =
      .ok (L.map (buildSegment dir analysisId)) := by
    rw [extract_timeline_segments,
      if_neg (by simpa using (List.isEmpty_eq_false).mpr hclips),
      if_neg (by simpa using (List.isEmpty_eq_false).mpr hne)]
    exact hloop
  refine ⟨L.map (buildSegment dir analysisId), hext, ?_, ?_, ?_, ?_⟩
  · apply create_ffmpeg_concat_file_ok
    intro s hs
    obtain ⟨c, hc, rfl⟩ := List.mem_map.mp hs
    exact hex c (hmemL c hc)
  · have hsorted : L.Pairwise (fun a b => a.displayFrom ≤ b.displayFrom) :=
      List.sorted_insertionSort _ M
    exact List.Pairwise.map _ (fun a b h => h) hsorted
  · exact (List.perm_insertionSort _ M).map _
  · intro a b hab hle
    have := List.pair_sublist_insertionSort (r := fun a b =>
      a.displayFrom ≤ b.displayFrom) hle hab
    exact this.map (buildSegment dir analysisId)

/-- Witness for `export_manifest_sorted_by_timeline_start`: three placements
with `timeline_start` 10, 0, 5 are listed in the order 0, 5, 10. -/
theorem export_manifest_sorted_by_timeline_start_witness :
    (∃ segments,
      extract_timeline_segments
        [{ id := some "cA", type := "video", isMezzanineSegment := true,
           src := "http://h/scene_a_mezzanine.mp4", displayFrom := 10,
           displayTo := 20, sceneId := some "sA" },
         { id := some "cB", type := "video", isMezzanineSegment := true,
           src := "http://h/scene_b_mezzanine.mp4", displayFrom := 0,
           displayTo := 10, sceneId := some "sB" },
         { id := some "cC", type := "video", isMezzanineSegment := true,
           src := "http://h/scene_c_mezzanine.mp4", displayFrom := 5,
           displayTo := 15, sceneId := some "sC" }]
        "a1" "/base" (fun _ => true) = .ok segments ∧
      create_ffmpeg_concat_file (fun _ => true) segments =
        .ok (segments.map fun s => "file '" ++ s.file_path ++ "'") ∧
      segments.Pairwise (fun a b => a.timeline_start ≤ b.timeline_start) ∧
      segments.Perm ((mezzanineFilter
        [{ id := some "cA", type := "video", isMezzanineSegment := true,
           src := "http://h/scene_a_mezzanine.mp4", displayFrom := 10,
           displayTo := 20, sceneId := some "sA" },
         { id := some "cB", type := "video", isMezzanineSegment := true,
           src := "http://h/scene_b_mezzanine.mp4", displayFrom := 0,
           displayTo := 10, sceneId := some "sB" },
         { id := some "cC", type := "video", isMezzanineSegment := true,
           src := "http://h/scene_c_mezzanine.mp4", displayFrom := 5,
           displayTo := 15, sceneId := some "sC" }]).map
          (buildSegment "/base" "a1")) ∧
      (∀ a b : Clip, List.Sublist [a, b] (mezzanineFilter
        [{ id := some "cA", type := "video", isMezzanineSegment := true,
           src := "http://h/scene_a_mezzanine.mp4", displayFrom := 10,
           displayTo := 20, sceneId := some "sA" },
         { id := some "cB", type := "video", isMezzanineSegment := true,
           src := "http://h/scene_b_mezzanine.mp4", displayFrom := 0,
           displayTo := 10, sceneId := some "sB" },
         { id := some "cC", type := "video", isMezzanineSegment := true,
           src := "http://h/scene_c_mezzanine.mp4", displayFrom := 5,
           displayTo := 15, sceneId := some "sC" }]) →
        a.displayFrom ≤ b.displayFrom →
        List.Sublist [buildSegment "/base" "a1" a, buildSegment "/base" "a1" b]
          segments)) ∧
    extract_timeline_segments
        [{ id := some "cA", type := "video", isMezzanineSegment := true,
           src := "http://h/scene_a_mezzanine.mp4", displayFrom := 10,
           displayTo := 20, sceneId := some "sA" },
         { id := some "cB", type := "video", isMezzanineSegment := true,
           src := "http://h/scene_b_mezzanine.mp4", displayFrom := 0,
           displayTo := 10, sceneId := some "sB" },
         { id := some "cC", type := "video", isMezzanineSegment := true,
           src := "http://h/scene_c_mezzanine.mp4", displayFrom := 5,
           displayTo := 15, sceneId := some "sC" }]
        "a1" "/base" (fun _ => true) =
      .ok
        [{ file_path := "/base/a1/segments/mezzanine/scene_b_mezzanine.mp4",
           timeline_start := 0, timeline_end := 10, scene_id := some "sB",
           clip_id := some "cB" },
         { file_path := "/base/a1/segments/mezzanine/scene_c_mezzanine.mp4",
           timeline_start := 5, timeline_end := 15, scene_id := some "sC",
           clip_id := some "cC" },
         { file_path := "/base/a1/segments/mezzanine/scene_a_mezzanine.mp4",
           timeline_start := 10, timeline_end := 20, scene_id := some "sA",
           clip_id := some "cA" }] := by
  constructor
  · exact export_manifest_sorted_by_timeline_start _ "a1" "/base" _
      (by decide) (by intro c hc; rfl)
  · rfl

/-- C6: if at least one referenced mezzanine segment file does not exist on
disk, `export_timeline_to_mp4` fails with the missing-segment error before
invoking the transcoder, and no output file is written. -/
theorem export_missing_segment_fails_before_transcode (clips : List Clip)
    (analysisId dir output : String) (fs : String → Bool) (ffmpeg : FfmpegEnv)
    (hmiss : ∃ c ∈ mezzanineFilter clips,
      fs (resolveSegmentPath dir analysisId c) = false) :
    ∃ p,
      (export_timeline_to_mp4 clips analysisId dir output fs ffmpeg).result =
        .error (.missingSegment p) ∧
      fs p = false ∧
      (export_timeline_to_mp4 clips analysisId dir output fs
        ffmpeg).transcoderInvoked = false ∧
      (export_timeline_to_mp4 clips analysisId dir output fs
        ffmpeg).outputWritten = false := by
  obtain ⟨c, hcM, hcf⟩ := hmiss
  have hne : mezzanineFilter clips ≠ [] := by
    intro h; rw [h] at hcM; simp at hcM
  have hclips : clips ≠ [] := by
    intro h; exact hne (by simp [mezzanineFilter, h])
  set L := List.insertionSort (fun a b => a.displayFrom ≤ b.displayFrom)
    (mezzanineFilter clips) with hL
  have hcL : c ∈ L := (List.mem_insertionSort _).mpr hcM
  have hcsrc : c.src.isEmpty = false := by
    have := List.of_mem_filter (p := fun c : Clip =>
      c.type == "video" && c.isMezzanineSegment && !c.src.isEmpty) hcM
    simp only [Bool.and_eq_true, Bool.not_eq_true'] at this
    exact this.2
  rcases extractLoop_error_shape fs dir analysisId L with ⟨segs, hok⟩ |
    ⟨p, herr, hfp⟩
  · exfalso
    rcases extractLoop_ok_all_exist fs dir analysisId hok c hcL with h | h
    · rw [hcsrc] at h; exact Bool.false_ne_true h
    · rw [hcf] at h; exact Bool.false_ne_true h
  · have hext : extract_timeline_segments clips analysisId dir fs =
        .error (.missingSegment p) := by
      rw [extract_timeline_segments,
        if_neg (by simpa using (List.isEmpty_eq_false).mpr hclips),
        if_neg (by simpa using (List.isEmpty_eq_false).mpr hne)]
      exact herr
    refine ⟨p, ?_, hfp, ?_, ?_⟩ <;>
      simp [export_timeline_to_mp4, hext]

/-- Witness for `export_missing_segment_fails_before_transcode`: a single
mezzanine placement whose resolved file is absent. -/
theorem export_missing_segment_fails_before_transcode_witness :
    ∃ p,
      (export_timeline_to_mp4
        [{ id := some "cA", type := "video", isMezzanineSegment := true,
           src := "http://h/scene_a_mezzanine.mp4", displayFrom := 0,
           displayTo := 10, sceneId := some "sA" }]
        "a1" "/base" "/out/export.mp4" (fun _ => false)
        ⟨0, true, 1000⟩).result = .error (.missingSegment p) ∧
      (fun _ : String => false) p = false ∧
      (export_timeline_to_mp4
        [{ id := some "cA", type := "video", isMezzanineSegment := true,
           src := "http://h/scene_a_mezzanine.mp4", displayFrom := 0,
           displayTo := 10, sceneId := some "sA" }]
        "a1" "/base" "/out/export.mp4" (fun _ => false)
        ⟨0, true, 1000⟩).transcoderInvoked = false ∧
      (export_timeline_to_mp4
        [{ id := some "cA", type := "video", isMezzanineSegment := true,
           src := "http://h/scene_a_mezzanine.mp4", displayFrom := 0,
           displayTo := 10, sceneId := some "sA" }]
        "a1" "/base" "/out/export.mp4" (fun _ => false)
        ⟨0, true, 1000⟩).outputWritten = false :=
  export_missing_segment_fails_before_transcode _ "a1" "/base"
    "/out/export.mp4" _ ⟨0, true, 1000⟩
    ⟨{ id := some "cA", type := "video", isMezzanineSegment := true,
       src := "http://h/scene_a_mezzanine.mp4", displayFrom := 0,
       displayTo := 10, sceneId := some "sA" },
     by decide, rfl⟩

/-! ### Contiguous-chain lemmas for the degradation claim -/

theorem detect_scenes_ne_nil (raw : List (ℚ × ℚ)) (capOpened : Bool)
    (capFps capFrameCount : ℚ) :
    detect_scenes raw capOpened capFps capFrameCount ≠ [] := by
  cases raw with
  | nil => simp [detect_scenes]
  | cons p rest => simp [detect_scenes]

theorem chain_starts_or_ends :
    ∀ (v : SceneOut) (vs : List SceneOut),
      List.Chain' (fun a b => a.end_ = b.start) (v :: vs) →
      ∀ x ∈ (v :: vs).map SceneOut.start,
        x = v.start ∨ x ∈ (v :: vs).map SceneOut.end_
  | v, [], _, x, hx => by
    rw [List.map_cons, List.map_nil] at hx
    exact .inl (List.mem_singleton.mp hx)
  | v, w :: ws, hch, x, hx => by
    rw [List.map_cons] at hx
    rcases List.mem_cons.mp hx with hx | hx
    · exact .inl hx
    · have hch' := (List.chain'_cons.mp hch).2
      have hvw := (List.chain'_cons.mp hch).1
      rcases chain_starts_or_ends w ws hch' x hx with hx' | hx'
      · refine .inr ?_
        have hxv : x = v.end_ := by rw [hx', ← hvw]
        rw [hxv]
        exact List.mem_map_of_mem SceneOut.end_ (List.mem_cons_self v (w :: ws))
      · refine .inr ?_
        rw [List.map_cons] at hx' ⊢
        rcases List.mem_cons.mp hx' with hx' | hx'
        · exact List.mem_cons.mpr (.inr (by
            rw [List.map_cons]
            exact List.mem_cons.mpr (.inl hx')))
        · exact List.mem_cons.mpr (.inr (by
            rw [List.map_cons]
            exact List.mem_cons.mpr (.inr hx')))

theorem chain_boundary_lt :
    ∀ (v : SceneOut) (vs : List SceneOut),
      List.Chain' (fun a b => a.end_ = b.start) (v :: vs) →
      (∀ s ∈ v :: vs, s.start < s.end_) →
      List.Chain' (· < ·) (v.start :: (v :: vs).map SceneOut.end_)
  | v, [], _, hpos => by
    simp only [List.map_cons, List.map_nil]
    exact List.chain'_cons.mpr ⟨hpos v (by simp), List.chain'_singleton _⟩
  | v, w :: ws, hch, hpos => by
    have hvw := (List.chain'_cons.mp hch).1
    have hch' := (List.chain'_cons.mp hch).2
    have ih := chain_boundary_lt w ws hch'
      (fun s hs => hpos s (List.mem_cons.mpr (.inr hs)))
    simp only [List.map_cons] at ih ⊢
    exact List.chain'_cons.mpr ⟨hpos v (by simp), by rw [hvw]; exact ih⟩

theorem sortedBoundaries_of_chain (v : SceneOut) (vs : List SceneOut)
    (hch : List.Chain' (fun a b => a.end_ = b.start) (v :: vs))
    (hpos : ∀ s ∈ v :: vs, s.start < s.end_) :
    sortedBoundaries (v :: vs) [] =
      v.start :: (v :: vs).map SceneOut.end_ := by
  have hBlt : (v.start :: (v :: vs).map SceneOut.end_).Pairwise (· < ·) :=
    List.chain'_iff_pairwise.mp (chain_boundary_lt v vs hch hpos)
  have hBnodup : (v.start :: (v :: vs).map SceneOut.end_).Nodup :=
    hBlt.imp ne_of_lt
  have hLnodup : (sortedBoundaries (v :: vs) []).Nodup :=
    ((List.perm_insertionSort _ _).nodup_iff).mpr (List.nodup_dedup _)
  have hmem : ∀ x, x ∈ sortedBoundaries (v :: vs) [] ↔
      x ∈ v.start :: (v :: vs).map SceneOut.end_ := by
    intro x
    rw [sortedBoundaries, List.mem_insertionSort, List.mem_dedup,
      List.mem_append]
    constructor
    · rintro (hx | hx)
      · rw [List.mem_flatMap] at hx
        obtain ⟨s, hs, hx⟩ := hx
        rcases List.mem_cons.mp hx with rfl | hx
        · rcases chain_starts_or_ends v vs hch s.start
            (List.mem_map_of_mem SceneOut.start hs) with h | h
          · rw [h]; exact List.mem_cons_self _ _
          · exact List.mem_cons_of_mem _ h
        · rw [List.mem_singleton.mp hx]
          exact List.mem_cons_of_mem _ (List.mem_map_of_mem SceneOut.end_ hs)
      · exact absurd hx (List.not_mem_nil x)
    · intro hx
      refine .inl (List.mem_flatMap.mpr ?_)
      rcases List.mem_cons.mp hx with rfl | hx
      · exact ⟨v, List.mem_cons_self _ _, List.mem_cons_self _ _⟩
      · obtain ⟨s, hs, rfl⟩ := List.mem_map.mp hx
        exact ⟨s, hs, List.mem_cons_of_mem _ (List.mem_singleton.mpr rfl)⟩
  exact List.eq_of_perm_of_sorted
    ((List.perm_ext_iff_of_nodup hLnodup hBnodup).mpr hmem)
    (List.sorted_insertionSort _ _) (hBlt.imp le_of_lt)

theorem pairsOf_of_chain :
    ∀ (v : SceneOut) (vs : List SceneOut),
      List.Chain' (fun a b => a.end_ = b.start) (v :: vs) →
      pairsOf (v.start :: (v :: vs).map SceneOut.end_) =
        (v :: vs).map fun s => (s.start, s.end_)
  | _, [], _ => rfl
  | v, w :: ws, hch => by
    have hvw := (List.chain'_cons.mp hch).1
    have ih := pairsOf_of_chain w ws (List.chain'_cons.mp hch).2
    calc pairsOf (v.start :: (v :: w :: ws).map SceneOut.end_)
        = (v.start, v.end_) ::
            pairsOf (v.end_ :: (w :: ws).map SceneOut.end_) := by
          simp only [List.map_cons, pairsOf]
      _ = (v.start, v.end_) ::
            pairsOf (w.start :: (w :: ws).map SceneOut.end_) := by rw [hvw]
      _ = (v.start, v.end_) :: (w :: ws).map (fun s => (s.start, s.end_)) := by
          rw [ih]
      _ = (v :: w :: ws).map (fun s => (s.start, s.end_)) := by
          simp only [List.map_cons]

theorem filterMap_aiSceneOf_scene_pairs :
    ∀ l : List SceneOut,
      (l.map fun s => (s.start, s.end_)).filterMap (aiSceneOf [] none) =
        (l.filter fun s => decide (¬ (s.end_ - s.start < 2))).map
          fun s =>
            { start := pyRound2 s.start, end_ := pyRound2 s.end_,
              transition_type := "cut", transcript := "", topics := [],
              confidence_score := 3/5 : AIScene }
  | [] => rfl
  | s :: rest => by
    by_cases h : s.end_ - s.start < 2
    · simp [aiSceneOf, h, filterMap_aiSceneOf_scene_pairs rest]
    · simp only [List.map_cons, List.filterMap_cons, aiSceneOf, if_neg h]
      rw [List.filter_cons_of_pos (by simpa using h)]
      simp [filterMap_aiSceneOf_scene_pairs rest]

/-- C1 (amended): when speech transcription is unavailable,
`detect_scenes_ai` does not return the `detect_scenes` output verbatim;
instead it re-segments the cut-based scenes' boundary union, so (first part)
the degraded run equals `ai_combine` of the cut-based scenes with no topic
boundaries, and (second part) for a contiguous cut-based scene list this is
the cut-based scene list itself with every scene shorter than 2.0 s
discarded, each scene re-tagged "cut" and carrying empty transcript, empty
topics, and confidence 0.6. -/
theorem detect_scenes_ai_unavailable_degradation :
    (∀ (raw : List (ℚ × ℚ)) (capOpened : Bool) (capFps capFrameCount : ℚ),
       detect_scenes_ai raw capOpened capFps capFrameCount true none =
         ai_combine (detect_scenes raw capOpened capFps capFrameCount) []
           none) ∧
    (∀ visual : List SceneOut,
       List.Chain' (fun a b => a.end_ = b.start) visual →
       (∀ s ∈ visual, s.start < s.end_) →
       ai_combine visual [] none =
         (visual.filter fun s => decide (¬ (s.end_ - s.start < 2))).map
           fun s =>
             { start := pyRound2 s.start, end_ := pyRound2 s.end_,
               transition_type := "cut", transcript := "", topics := [],
               confidence_score := 3/5 : AIScene }) := by
  constructor
  · intro raw capOpened capFps capFrameCount
    have hne := detect_scenes_ne_nil raw capOpened capFps capFrameCount
    rw [detect_scenes_ai, if_neg (by simp [List.isEmpty_iff, hne])]
    rfl
  · intro visual hch hpos
    cases visual with
    | nil => rfl
    | cons v vs =>
      rw [ai_combine, sortedBoundaries_of_chain v vs hch hpos,
        pairsOf_of_chain v vs hch, filterMap_aiSceneOf_scene_pairs]

/-- Witness for `detect_scenes_ai_unavailable_degradation` on the contiguous
cut-based scene list [(0, 4), (4, 9)]. -/
theorem detect_scenes_ai_unavailable_degradation_witness :
    ai_combine [⟨0, 4, "cut"⟩, ⟨4, 9, "cut"⟩] [] none =
      ([⟨0, 4, "cut"⟩, ⟨4, 9, "cut"⟩].filter fun s : SceneOut =>
          decide (¬ (s.end_ - s.start < 2))).map
        fun s =>
          { start := pyRound2 s.start, end_ := pyRound2 s.end_,
            transition_type := "cut", transcript := "", topics := [],
            confidence_score := 3/5 : AIScene } :=
  detect_scenes_ai_unavailable_degradation.2
    [⟨0, 4, "cut"⟩, ⟨4, 9, "cut"⟩]
    (List.chain'_cons.mpr ⟨rfl, List.chain'_singleton _⟩)
    (by norm_num [List.forall_mem_cons])

/-- C1 counterexample: with transcription unavailable, on raw cut-based
scenes [(0, 1), (1, 12)] the cut-based detector returns two scenes but the
AI-assisted detector returns one (the sub-2 s scene is dropped), so the
outputs are not identical. -/
theorem detect_scenes_ai_unavailable_not_identical :
    (detect_scenes_ai [(0, 1), (1, 12)] true 25 300 true none).map
      (fun s => (s.start, s.end_, s.transition_type)) = [(1, 12, "cut")] ∧
    (detect_scenes [(0, 1), (1, 12)] true 25 300).map
      (fun s => (s.start, s.end_, s.transition_type)) =
      [(0, 1, "cut"), (1, 12, "cut")] ∧
    (detect_scenes_ai [(0, 1), (1, 12)] true 25 300 true none).length ≠
      (detect_scenes [(0, 1), (1, 12)] true 25 300).length := by
  have h0 : pyRound2 (0 : ℚ) = 0 := by simpa using pyRound2_intCast 0
  have h1 : pyRound2 (1 : ℚ) = 1 := by simpa using pyRound2_intCast 1
  have h12 : pyRound2 (12 : ℚ) = 12 := by simpa using pyRound2_intCast 12
  have hscenes : detect_scenes [(0, 1), (1, 12)] true 25 300 =
      [⟨0, 1, "cut"⟩, ⟨1, 12, "cut"⟩] := by
    norm_num [detect_scenes, List.enum, List.enumFrom, h0, h1, h12]
  have hbound : sortedBoundaries [⟨0, 1, "cut"⟩, ⟨1, 12, "cut"⟩] [] =
      [0, 1, 12] := by
    norm_num [sortedBoundaries, List.dedup, List.pwFilter,
      List.insertionSort, List.orderedInsert]
  have hai : detect_scenes_ai [(0, 1), (1, 12)] true 25 300 true none =
      [⟨1, 12, "cut", "", [], 3/5⟩] := by
    have hne := detect_scenes_ne_nil [(0, 1), (1, 12)] true 25 300
    have hred : detect_scenes_ai [(0, 1), (1, 12)] true 25 300 true none =
        ai_combine (detect_scenes [(0, 1), (1, 12)] true 25 300) [] none := by
      rw [detect_scenes_ai, if_neg (by simp [List.isEmpty_iff, hne])]
      rfl
    rw [hred, hscenes, ai_combine, hbound]
    norm_num [pairsOf, aiSceneOf, h1, h12, List.filterMap_cons]
  refine ⟨?_, ?_, ?_⟩
  · rw [hai]; rfl
  · rw [hscenes]; rfl
  · rw [hai, hscenes]; simp

/-! ### Scene-ordering lemmas (claim C2) -/

theorem pyRound2_lt_of_add_le {a b : ℚ} (k : ℤ) (hk : 0 < k)
    (h : a + k / 50 ≤ b) : pyRound2 a < pyRound2 b := by
  have h1 : pyRound2 (a + k / 50) = pyRound2 a + k / 50 :=
    pyRound2_add_even_cs a k
  have h2 : pyRound2 (a + k / 50) ≤ pyRound2 b := pyRound2_mono h
  have hk' : (0 : ℚ) < (k : ℚ) / 50 := by
    have : (0 : ℚ) < (k : ℚ) := by exact_mod_cast hk
    positivity
  linarith

theorem pairsOf_fst_mem : ∀ {l : List ℚ} {p : ℚ × ℚ}, p ∈ pairsOf l → p.1 ∈ l
  | [], p, hp => by simp [pairsOf] at hp
  | [_], p, hp => by simp [pairsOf] at hp
  | x :: y :: rest, p, hp => by
    rcases List.mem_cons.mp hp with rfl | hp
    · exact List.mem_cons_self _ _
    · exact List.mem_cons_of_mem _ (pairsOf_fst_mem hp)

theorem pairsOf_adjacent_lt :
    ∀ {l : List ℚ}, List.Chain' (· < ·) l →
      ∀ p ∈ pairsOf l, p.1 < p.2
  | [], _, p, hp => by simp [pairsOf] at hp
  | [_], _, p, hp => by simp [pairsOf] at hp
  | x :: y :: rest, h, p, hp => by
    rcases List.mem_cons.mp hp with rfl | hp
    · exact (List.chain'_cons.mp h).1
    · exact pairsOf_adjacent_lt (List.chain'_cons.mp h).2 p hp

theorem pairsOf_pairwise_le :
    ∀ {l : List ℚ}, l.Pairwise (· ≤ ·) →
      (pairsOf l).Pairwise (fun p q => p.2 ≤ q.1)
  | [], _ => List.Pairwise.nil
  | [_], _ => List.Pairwise.nil
  | x :: y :: rest, h => by
    refine List.pairwise_cons.mpr ⟨?_, pairsOf_pairwise_le h.tail⟩
    intro q hq
    have hq1 : q.1 ∈ y :: rest := pairsOf_fst_mem hq
    rcases List.mem_cons.mp hq1 with hq1 | hq1
    · exact le_of_eq (congrArg id hq1).symm
    · exact List.rel_of_pairwise_cons h.tail hq1

theorem aiSceneOf_some {tb : List ℚ} {ts : Option (List TranscriptSegment)}
    {p : ℚ × ℚ} {s : AIScene} (h : aiSceneOf tb ts p = some s) :
    s.start = pyRound2 p.1 ∧ s.end_ = pyRound2 p.2 ∧ p.1 + 2 ≤ p.2 := by
  by_cases hlt : p.2 - p.1 < 2
  · simp [aiSceneOf, hlt] at h
  · simp only [aiSceneOf, if_neg hlt, Option.some.injEq] at h
    refine ⟨by rw [← h], by rw [← h], by linarith [not_lt.mp hlt]⟩

theorem chain'_enumFrom {α : Type} {R : α → α → Prop} :
    ∀ (n : ℕ) (l : List α), List.Chain' R l →
      List.Chain' (fun a b : ℕ × α => R a.2 b.2) (List.enumFrom n l)
  | _, [], _ => List.chain'_nil
  | _, [_], _ => List.chain'_singleton _
  | n, a :: b :: tl, h => by
    have hab := (List.chain'_cons.mp h).1
    have h' := (List.chain'_cons.mp h).2
    have ih := chain'_enumFrom (n + 1) (b :: tl) h'
    simp only [List.enumFrom] at ih ⊢
    exact List.chain'_cons.mpr ⟨hab, ih⟩

/-- Claim C2's description of a valid detected scene sequence for a source of
the given duration: contiguous, starting at 0, ending at `duration`, every
scene nonempty.  (Formalised from the specification's wording.) -/
def scenesContiguousSpan (l : List (ℚ × ℚ)) (duration : ℚ) : Prop :=
  List.Chain' (fun p q => p.2 = q.1) l ∧
  l.head?.map Prod.fst = some 0 ∧
  l.getLast?.map Prod.snd = some duration ∧
  ∀ p ∈ l, p.1 < p.2

/-- C2 counterexample: a 12-second source (300 frames at 25 fps) whose only
visual scene is (0, 12) and whose speech ends at 11 s makes the AI-assisted
detector return the single scene (0, 11): the sub-2-second scene (11, 12) is
dropped, so the output does not span [0, 12). -/
theorem detection_span_counterexample :
    (detect_scenes_ai [(0, 12)] true 25 300 true
        (some [⟨1/2, 11, "Hello there."⟩])).map (fun s => (s.start, s.end_)) =
      [(0, 11)] ∧
    (300 : ℚ) / 25 = 12 ∧
    ¬ scenesContiguousSpan [(0, 11)] 12 ∧
    (detect_scenes [(0, 12)] true 25 300).map (fun s => (s.start, s.end_)) =
      [(0, 12)] := by
  have h0 : pyRound2 (0 : ℚ) = 0 := by simpa using pyRound2_intCast 0
  have h11 : pyRound2 (11 : ℚ) = 11 := by simpa using pyRound2_intCast 11
  have h12 : pyRound2 (12 : ℚ) = 12 := by simpa using pyRound2_intCast 12
  have hvis : detect_scenes [(0, 12)] true 25 300 = [⟨0, 12, "cut"⟩] := by
    norm_num [detect_scenes, List.enum, List.enumFrom, h0, h12]
  have hstrip : pyStrip "Hello there." = "Hello there." := rfl
  have htopic : detect_topic_boundaries [⟨1/2, 11, "Hello there."⟩] 5 =
      [0, 11] := by
    rw [detect_topic_boundaries]
    norm_num [List.enum, List.enumFrom, List.foldl, hstrip]
  have hbound : sortedBoundaries [⟨0, 12, "cut"⟩] [0, 11] = [0, 11, 12] := by
    norm_num [sortedBoundaries, List.dedup, List.pwFilter,
      List.insertionSort, List.orderedInsert]
  have hne := detect_scenes_ne_nil [(0, 12)] true 25 300
  have hred : detect_scenes_ai [(0, 12)] true 25 300 true
      (some [⟨1/2, 11, "Hello there."⟩]) =
      ai_combine (detect_scenes [(0, 12)] true 25 300)
        (detect_topic_boundaries [⟨1/2, 11, "Hello there."⟩])
        (some [⟨1/2, 11, "Hello there."⟩]) := by
    rw [detect_scenes_ai, if_neg (by simp [List.isEmpty_iff, hne])]
    rfl
  refine ⟨?_, by norm_num, ?_, by rw [hvis]; rfl⟩
  · rw [hred, hvis, htopic, ai_combine, hbound]
    norm_num [pairsOf, aiSceneOf, h0, h11, List.filterMap_cons]
  · rintro ⟨-, -, hlast, -⟩
    simp only [List.getLast?, Option.map_some'] at hlast
    exact absurd (Option.some.inj hlast) (by norm_num)

/-- C2 (amended): every AI-assisted scene sequence is ordered and
non-overlapping with each scene at least 2 s long (so end > start), but need
not span [0, duration) since scenes shorter than 2 s are discarded; the
cut-based detector's output is never empty and, whenever the raw detector
reports a contiguous scene list with scenes of at least 0.02 s, it is
contiguous with end > start per scene and starts at the (rounded) first raw
start.  The spanning part of the original claim fails (see the
counterexample). -/
theorem detection_scene_ordering_amended :
    (∀ (visual : List SceneOut) (topic : List ℚ)
        (ts : Option (List TranscriptSegment)),
       ((ai_combine visual topic ts).Pairwise fun a b => a.end_ ≤ b.start) ∧
       ∀ s ∈ ai_combine visual topic ts, s.start < s.end_) ∧
    (∀ (raw : List (ℚ × ℚ)) (capOpened : Bool) (capFps capFrameCount : ℚ),
       detect_scenes raw capOpened capFps capFrameCount ≠ [] ∧
       (raw ≠ [] →
        List.Chain' (fun p q : ℚ × ℚ => p.2 = q.1) raw →
        (∀ p ∈ raw, p.1 + 1/50 ≤ p.2) →
        List.Chain' (fun a b : SceneOut => a.end_ = b.start)
            (detect_scenes raw capOpened capFps capFrameCount) ∧
          (∀ s ∈ detect_scenes raw capOpened capFps capFrameCount,
            s.start < s.end_) ∧
          (detect_scenes raw capOpened capFps capFrameCount).head?.map
              SceneOut.start = raw.head?.map fun p => pyRound2 p.1)) := by
  constructor
  · intro visual topic ts
    have hle : (sortedBoundaries visual topic).Pairwise (· ≤ ·) :=
      List.sorted_insertionSort _ _
    have hnd : (sortedBoundaries visual topic).Nodup :=
      ((List.perm_insertionSort _ _).nodup_iff).mpr (List.nodup_dedup _)
    have hlt : (sortedBoundaries visual topic).Pairwise (· < ·) :=
      (hle.and hnd).imp fun h => lt_of_le_of_ne h.1 h.2
    constructor
    · refine List.Pairwise.filterMap _ ?_ (pairsOf_pairwise_le hle)
      intro p q hpq a ha b hb
      obtain ⟨-, hae, -⟩ := aiSceneOf_some (Option.mem_def.mp ha)
      obtain ⟨hbs, -, -⟩ := aiSceneOf_some (Option.mem_def.mp hb)
      rw [hae, hbs]
      exact pyRound2_mono hpq
    · intro s hs
      obtain ⟨p, _, hps⟩ := List.mem_filterMap.mp hs
      obtain ⟨hs1, hs2, hadd⟩ := aiSceneOf_some hps
      rw [hs1, hs2]
      exact pyRound2_lt_of_add_le 100 (by norm_num)
        (by push_cast; linarith)
  · intro raw capOpened capFps capFrameCount
    refine ⟨detect_scenes_ne_nil raw capOpened capFps capFrameCount, ?_⟩
    intro hraw hch hlen
    have hform : detect_scenes raw capOpened capFps capFrameCount =
        raw.enum.map fun p =>
          let i : ℕ := p.1
          let start_time : ℚ := p.2.1
          let end_time : ℚ := p.2.2
          { start := pyRound2 start_time, end_ := pyRound2 end_time,
            transition_type :=
              if i = 0 ∧ (1/5 : ℚ) < start_time ∧ start_time < 2 then
                "fade-in"
              else "cut" : SceneOut } := by
      rw [detect_scenes, if_neg (by simp [List.isEmpty_iff, hraw])]
    refine ⟨?_, ?_, ?_⟩
    · rw [hform]
      rw [List.chain'_map]
      have hc := chain'_enumFrom (R := fun p q : ℚ × ℚ => p.2 = q.1) 0 raw hch
      refine List.Chain'.imp ?_ hc
      intro a b hab
      exact congrArg pyRound2 hab
    · intro s hs
      rw [hform] at hs
      obtain ⟨⟨i, p⟩, hip, rfl⟩ := List.mem_map.mp hs
      have hpraw : p ∈ raw := by
        have := List.mem_map_of_mem Prod.snd hip
        rwa [List.enum_map_snd] at this
      exact pyRound2_lt_of_add_le 1 (by norm_num)
        (by push_cast; linarith [hlen p hpraw])
    · cases raw with
      | nil => exact absurd rfl hraw
      | cons r rest =>
        rw [hform]
        simp [List.enum, List.enumFrom]

/-- Witness for `detection_scene_ordering_amended`: the cut-based detector on
raw contiguous scenes [(0, 4), (4, 9)]. -/
theorem detection_scene_ordering_amended_witness :
    List.Chain' (fun a b : SceneOut => a.end_ = b.start)
        (detect_scenes [(0, 4), (4, 9)] true 25 300) ∧
      (∀ s ∈ detect_scenes [(0, 4), (4, 9)] true 25 300,
        s.start < s.end_) ∧
      (detect_scenes [(0, 4), (4, 9)] true 25 300).head?.map
          SceneOut.start =
        ([(0, 4), (4, 9)] : List (ℚ × ℚ)).head?.map fun p => pyRound2 p.1 :=
  (detection_scene_ordering_amended.2 [(0, 4), (4, 9)] true 25 300).2
    (by simp)
    (List.chain'_cons.mpr ⟨rfl, List.chain'_singleton _⟩)
    (by norm_num [List.forall_mem_cons])

end VideoCore
